import Mathlib

/-!
Shallow embedding of `src/src/index.ts` (an Azle/Internet-Computer canister
implementing an ad marketplace with bidding) and proofs of the specified
properties.

The canister keeps a `StableBTreeMap<string, Ad>` and exposes seven
operations: `createAd`, `updateAd`, `deleteAd`, `bidOnAd`, `getAllAds`,
`getAdByID`, `getAdsByOwner`.  We model the store as an association list
with unique-key insert/remove/lookup, the environment inputs (`uuidv4()`
fresh identifiers and `ic.time()`) as explicit parameters, the JavaScript
`number` type (only ever stored, never computed with) as an integer-or-NaN
type, and each update method as a pure function from arguments and store to
a `Except String Ad × store` pair (query methods return only the result).
-/

namespace ICAds

/-- JavaScript `number` as used by this program: bid amounts are stored and
compared for nothing but NaN-ness, so we model a number as either NaN or an
integer value. -/
inductive JSNum where
  | nan : JSNum
  | num : Int → JSNum
deriving DecidableEq

/-- `isNaN(x)` for an argument already of number type. -/
def JSNum.isNaN : JSNum → Bool
  | JSNum.nan => true
  | JSNum.num _ => false

/-- `type Bid = Record<{ bidder: string; amount: number }>`. -/
structure Bid where
  bidder : String
  amount : JSNum
deriving DecidableEq

/-- `type Ad = Record<{ id; owner; itemType; itemDescription; bids; status;
createdAt; updatedAt }>`.  `nat64` timestamps become `Nat`; `Opt<nat64>`
becomes `Option Nat`. -/
structure Ad where
  id : String
  owner : String
  itemType : String
  itemDescription : String
  bids : List Bid
  status : String
  createdAt : Nat
  updatedAt : Option Nat
deriving DecidableEq

/-- `type UpdateAdPayload = Record<{ itemType; itemDescription; status }>`. -/
structure UpdateAdPayload where
  itemType : String
  itemDescription : String
  status : String
deriving DecidableEq

/-- The values of `enum AdStatus` (a TypeScript string enum, whose compiled
object has exactly the keys OPEN, CLOSED, BOUGHT, each mapped to itself;
string enums generate no reverse mapping). -/
def adStatusValues : List String := ["OPEN", "CLOSED", "BOUGHT"]

/-- Property names that every plain JavaScript object inherits from
`Object.prototype`.  The source validates `payload.status in AdStatus`, and
the `in` operator consults the whole prototype chain, so these names pass
the membership test as well as the three enum keys. -/
def objectPrototypeProps : List String :=
  ["constructor", "hasOwnProperty", "isPrototypeOf", "propertyIsEnumerable",
   "toLocaleString", "toString", "valueOf", "__proto__",
   "__defineGetter__", "__defineSetter__", "__lookupGetter__",
   "__lookupSetter__"]

/-- The JavaScript expression `s in AdStatus`: true iff `s` is an own key of
the compiled enum object (OPEN, CLOSED, BOUGHT) or a property inherited from
`Object.prototype`. -/
def inAdStatusObject (s : String) : Bool :=
  adStatusValues.contains s || objectPrototypeProps.contains s

/-- The store `adStorage : StableBTreeMap<string, Ad>`, modelled as an
association list from ids to ads. -/
abbrev AdStore := List (String × Ad)

/-- `adStorage.get(k)`: the ad stored under key `k`, if any. -/
def storageGet (k : String) : AdStore → Option Ad
  | [] => none
  | (k0, v) :: rest => if k0 == k then some v else storageGet k rest

/-- `adStorage.insert(k, v)`: replace the entry for `k` if present,
otherwise add one. -/
def storageInsert (k : String) (v : Ad) : AdStore → AdStore
  | [] => [(k, v)]
  | (k0, v0) :: rest =>
      if k0 == k then (k, v) :: rest else (k0, v0) :: storageInsert k v rest

/-- `adStorage.remove(k)`: drop the entry for `k`. -/
def storageRemove (k : String) (s : AdStore) : AdStore :=
  s.filter (fun p => !(p.1 == k))

/-- `adStorage.values()`: the stored ads in store order. -/
def storageValues (s : AdStore) : List Ad :=
  s.map (fun p => p.2)

/-- `createAd(payload)`.  The fresh identifiers produced by the two
`uuidv4()` calls and the `ic.time()` timestamp are passed in as the
environment parameters `genId`, `genOwner`, `now`; the caller-supplied
payload is only `itemType` and `itemDescription`. -/
def createAd (genId genOwner : String) (now : Nat)
    (itemType itemDescription : String) (store : AdStore) :
    Except String Ad × AdStore :=
  if itemType == "" || itemDescription == "" then
    (Except.error "Invalid payload for creating ad", store)
  else
    let ad : Ad :=
      { id := genId, owner := genOwner, bids := [], status := "OPEN",
        createdAt := now, updatedAt := none,
        itemType := itemType, itemDescription := itemDescription }
    (Except.ok ad, storageInsert ad.id ad store)

/-- The record update performed in the success branch of `updateAd`: each
payload field falls back to the stored value when falsy (`x || ad.x`), and
`updatedAt` is set to `Opt.Some(ic.time())`. -/
def applyUpdate (now : Nat) (payload : UpdateAdPayload) (ad : Ad) : Ad :=
  { ad with
    itemType := if payload.itemType == "" then ad.itemType else payload.itemType,
    itemDescription :=
      if payload.itemDescription == "" then ad.itemDescription
      else payload.itemDescription,
    status := if payload.status == "" then ad.status else payload.status,
    updatedAt := some now }

/-- `updateAd(id, owner, payload)`. -/
def updateAd (now : Nat) (id owner : String) (payload : UpdateAdPayload)
    (store : AdStore) : Except String Ad × AdStore :=
  if id == "" || owner == "" then
    (Except.error "Invalid parameters for updating ad", store)
  else if payload.itemType == "" || payload.itemDescription == "" then
    (Except.error "Invalid payload for updating ad", store)
  else if payload.status != "" && !(inAdStatusObject payload.status) then
    (Except.error "Invalid status! Allowed statuses are OPEN, CLOSED, BOUGHT",
     store)
  else
    match storageGet id store with
    | some ad =>
        if ad.owner != owner then
          (Except.error "Only the owner can edit the ad!", store)
        else
          let updatedAd := applyUpdate now payload ad
          (Except.ok updatedAd, storageInsert ad.id updatedAd store)
    | none =>
        (Except.error ("Ad with id of " ++ id ++ " has not been found"), store)

/-- `deleteAd(id, owner)`. -/
def deleteAd (id owner : String) (store : AdStore) :
    Except String Ad × AdStore :=
  if id == "" || owner == "" then
    (Except.error "Invalid parameters for deleting ad", store)
  else
    match storageGet id store with
    | some ad =>
        if ad.owner != owner then
          (Except.error "Only the owner can delete the ad!", store)
        else
          (Except.ok ad, storageRemove id store)
    | none =>
        (Except.error ("Ad with id of " ++ id ++ " has not been found"), store)

/-- The record update performed in the success branch of `bidOnAd`:
`ad.bids.push({bidder, amount})`. -/
def applyBid (bidder : String) (amount : JSNum) (ad : Ad) : Ad :=
  { ad with bids := ad.bids ++ [{ bidder := bidder, amount := amount }] }

/-- `bidOnAd(id, bidder, amount)`. -/
def bidOnAd (id bidder : String) (amount : JSNum) (store : AdStore) :
    Except String Ad × AdStore :=
  if id == "" || bidder == "" || amount.isNaN then
    (Except.error "Invalid parameters for bidding on ad", store)
  else
    match storageGet id store with
    | some ad =>
        if ad.status != "OPEN" then
          (Except.error "Ad is no longer open", store)
        else if ad.owner == bidder then
          (Except.error "You can\x27t bid on your own ad!", store)
        else if (ad.bids.find? (fun b => b.bidder == bidder)).isSome then
          (Except.error (bidder ++ " has already bid on this ad!"), store)
        else
          let updatedAd := applyBid bidder amount ad
          (Except.ok updatedAd, storageInsert ad.id updatedAd store)
    | none =>
        (Except.error ("Ad with id of " ++ id ++ " has not been found"), store)

/-- `getAllAds()`: a query, returns all stored ads; never fails. -/
def getAllAds (store : AdStore) : Except String (List Ad) :=
  Except.ok (storageValues store)

/-- `getAdByID(id)`: a query. -/
def getAdByID (id : String) (store : AdStore) : Except String Ad :=
  match storageGet id store with
  | some ad => Except.ok ad
  | none => Except.error ("Ad with id of " ++ id ++ " has not been found!")

/-- `getAdsByOwner(owner)`: a query; an empty filter result is an error. -/
def getAdsByOwner (owner : String) (store : AdStore) :
    Except String (List Ad) :=
  let ads := (storageValues store).filter (fun ad => ad.owner == owner)
  if ads.length > 0 then Except.ok ads
  else Except.error ("No ads found for " ++ owner)

/-- A concrete open ad used by the witness examples below. -/
def demoOpenAd : Ad :=
  { id := "a", owner := "o", itemType := "x", itemDescription := "y",
    bids := [], status := "OPEN", createdAt := 3, updatedAt := none }

/-- The seven canister operations, with the environment inputs each call
consumes (the `uuidv4()` outputs and `ic.time()`) carried as data. -/
inductive Op where
  | create (genId genOwner : String) (now : Nat)
      (itemType itemDescription : String)
  | update (now : Nat) (id owner : String) (payload : UpdateAdPayload)
  | delete (id owner : String)
  | bid (id bidder : String) (amount : JSNum)
  | qAll
  | qById (id : String)
  | qByOwner (owner : String)

/-- The store after one operation; the three queries never write. -/
def applyOp : Op → AdStore → AdStore
  | Op.create genId genOwner now it desc, s =>
      (createAd genId genOwner now it desc s).2
  | Op.update now id owner p, s => (updateAd now id owner p s).2
  | Op.delete id owner, s => (deleteAd id owner s).2
  | Op.bid id bidder amount, s => (bidOnAd id bidder amount s).2
  | Op.qAll, s => s
  | Op.qById _, s => s
  | Op.qByOwner _, s => s

/-- The unique-ID generator assumption of the spec: `uuidv4()` hands
`createAd` an id not already present in the store.  All other operations
are unconstrained. -/
def FreshOk : Op → AdStore → Prop
  | Op.create genId _ _ _ _, s => storageGet genId s = none
  | _, _ => True

/-- Store states reachable from the empty store through the seven
operations. -/
inductive Reachable : AdStore → Prop where
  | init : Reachable []
  | step (op : Op) (s : AdStore) (h : Reachable s) (hf : FreshOk op s) :
      Reachable (applyOp op s)

/-- Per-ad invariant: pairwise-distinct bidders, and the owner never among
them. -/
def AdInv (ad : Ad) : Prop :=
  (ad.bids.map Bid.bidder).Nodup ∧ ad.owner ∉ ad.bids.map Bid.bidder

/-- Store invariant: every entry's ad carries the entry's key as its id and
satisfies the per-ad invariant. -/
def StoreInv (s : AdStore) : Prop :=
  ∀ p ∈ s, p.2.id = p.1 ∧ AdInv p.2

/-! ### Storage lemmas -/

theorem storageGet_insert_self (k : String) (v : Ad) (s : AdStore) :
    storageGet k (storageInsert k v s) = some v := by
  induction s with
  | nil => simp [storageGet, storageInsert]
  | cons p rest ih =>
      obtain ⟨k0, v0⟩ := p
      by_cases h : k0 = k
      · simp [storageInsert, storageGet, h]
      · simp [storageInsert, storageGet, h, ih]

theorem storageGet_insert_ne (k' k : String) (v : Ad) (s : AdStore)
    (h : k' ≠ k) :
    storageGet k' (storageInsert k v s) = storageGet k' s := by
  induction s with
  | nil => simp [storageGet, storageInsert, Ne.symm h]
  | cons p rest ih =>
      obtain ⟨k0, v0⟩ := p
      by_cases h0 : k0 = k
      · subst h0
        simp [storageInsert, storageGet, Ne.symm h]
      · simp [storageInsert, storageGet, h0, ih]

theorem storageGet_remove_self (k : String) (s : AdStore) :
    storageGet k (storageRemove k s) = none := by
  induction s with
  | nil => simp [storageGet, storageRemove]
  | cons p rest ih =>
      obtain ⟨k0, v0⟩ := p
      by_cases h : k0 = k
      · simpa [storageRemove, storageGet, h] using ih
      · simpa [storageRemove, storageGet, h] using ih

theorem storageGet_remove_ne (k' k : String) (s : AdStore) (h : k' ≠ k) :
    storageGet k' (storageRemove k s) = storageGet k' s := by
  induction s with
  | nil => simp [storageGet, storageRemove]
  | cons p rest ih =>
      obtain ⟨k0, v0⟩ := p
      by_cases h0 : k0 = k
      · subst h0
        simpa [storageRemove, storageGet, Ne.symm h] using ih
      · by_cases h1 : k0 = k'
        · subst h1
          simp [storageRemove, storageGet, h]
        · simpa [storageRemove, storageGet, h0, h1] using ih

theorem mem_storageInsert {p : String × Ad} (k : String) (v : Ad)
    (s : AdStore) (h : p ∈ storageInsert k v s) : p = (k, v) ∨ p ∈ s := by
  induction s with
  | nil => simpa [storageInsert] using h
  | cons q rest ih =>
      obtain ⟨k0, v0⟩ := q
      by_cases h0 : k0 = k
      · simp [storageInsert, h0] at h
        rcases h with h | h
        · exact Or.inl (by simp [h])
        · exact Or.inr (by simp [h])
      · simp [storageInsert, h0] at h
        rcases h with h | h
        · exact Or.inr (by simp [h])
        · rcases ih h with h1 | h1
          · exact Or.inl h1
          · exact Or.inr (by simp [h1])

theorem storageGet_mem {k : String} {ad : Ad} {s : AdStore}
    (h : storageGet k s = some ad) : (k, ad) ∈ s := by
  induction s with
  | nil => simp [storageGet] at h
  | cons q rest ih =>
      obtain ⟨k0, v0⟩ := q
      by_cases h0 : k0 = k
      · subst h0
        simp [storageGet] at h
        simp [h]
      · simp [storageGet, h0] at h
        exact List.mem_cons_of_mem _ (ih h)

/-! ### Claim theorems -/

/-- C1: the claim states that updateAd with a non-empty status outside
{OPEN, CLOSED, BOUGHT} always returns the InvalidStatus failure and leaves
the store unchanged.  The code checks `payload.status in AdStatus`, and the
JavaScript `in` operator also accepts every property name inherited from
`Object.prototype`: the status "toString" is non-empty and is none of the
three allowed statuses, yet updateAd accepts it, stores it as the ad's
status and modifies the store — contradicting both the claim and the code's
own error message, which enumerates the allowed statuses. -/
theorem updateAd_toString_bypasses_status_validation :
    adStatusValues.contains "toString" = false ∧
    updateAd 7 "a" "b"
        { itemType := "t", itemDescription := "d", status := "toString" }
        [("a", { id := "a", owner := "b", itemType := "x",
                 itemDescription := "y", bids := [], status := "OPEN",
                 createdAt := 3, updatedAt := none })] =
      (Except.ok { id := "a", owner := "b", itemType := "t",
                   itemDescription := "d", bids := [], status := "toString",
                   createdAt := 3, updatedAt := some 7 },
       [("a", { id := "a", owner := "b", itemType := "t",
                itemDescription := "d", bids := [], status := "toString",
                createdAt := 3, updatedAt := some 7 })]) := by
  exact ⟨rfl, rfl⟩

/-- C2: createAd with non-empty itemType and itemDescription succeeds and
returns an ad whose id and owner are the two generator-supplied fresh
identifiers (the caller passes only the two payload fields), whose status
is OPEN, whose bids are empty, whose createdAt is the current time and
whose updatedAt is absent; exactly that ad is inserted into the store under
its id. -/
theorem createAd_spec (genId genOwner : String) (now : Nat)
    (it desc : String) (store : AdStore)
    (hit : it ≠ "") (hdesc : desc ≠ "") :
    ∃ ad : Ad,
      createAd genId genOwner now it desc store =
        (Except.ok ad, storageInsert ad.id ad store) ∧
      ad.id = genId ∧ ad.owner = genOwner ∧ ad.status = "OPEN" ∧
      ad.bids = [] ∧ ad.createdAt = now ∧ ad.updatedAt = none ∧
      ad.itemType = it ∧ ad.itemDescription = desc ∧
      storageGet ad.id (createAd genId genOwner now it desc store).2 =
        some ad := by
  refine ⟨{ id := genId, owner := genOwner, bids := [], status := "OPEN",
            createdAt := now, updatedAt := none, itemType := it,
            itemDescription := desc }, ?_, rfl, rfl, rfl, rfl, rfl, rfl, rfl,
          rfl, ?_⟩
  · simp [createAd, hit, hdesc]
  · simp [createAd, hit, hdesc, storageGet_insert_self]

/-- C2 witness: a concrete successful creation. -/
theorem createAd_spec_witness :
    ("bike" : String) ≠ "" ∧ ("red bike" : String) ≠ "" ∧
    (∃ ad : Ad,
      createAd "id1" "owner1" 42 "bike" "red bike" [] =
        (Except.ok ad, storageInsert ad.id ad []) ∧
      ad.id = "id1" ∧ ad.owner = "owner1" ∧ ad.status = "OPEN" ∧
      ad.bids = [] ∧ ad.createdAt = 42 ∧ ad.updatedAt = none ∧
      ad.itemType = "bike" ∧ ad.itemDescription = "red bike" ∧
      storageGet ad.id (createAd "id1" "owner1" 42 "bike" "red bike" []).2 =
        some ad) :=
  ⟨by decide, by decide,
   createAd_spec "id1" "owner1" 42 "bike" "red bike" [] (by decide) (by decide)⟩

/-- C3: every successful updateAd call on a stored ad replaces itemType,
itemDescription and status by the payload values (an empty payload status
leaves status unchanged), sets updatedAt to the current time, keeps id,
owner, createdAt and bids unchanged, and persists exactly the returned ad
under its id. -/
theorem updateAd_success_frame (now : Nat) (id owner : String)
    (p : UpdateAdPayload) (store : AdStore) (ad' : Ad)
    (h : (updateAd now id owner p store).1 = Except.ok ad') :
    ∃ ad : Ad, storageGet id store = some ad ∧
      ad'.itemType = p.itemType ∧ ad'.itemDescription = p.itemDescription ∧
      ad'.status = (if p.status = "" then ad.status else p.status) ∧
      ad'.updatedAt = some now ∧
      ad'.id = ad.id ∧ ad'.owner = ad.owner ∧
      ad'.createdAt = ad.createdAt ∧ ad'.bids = ad.bids ∧
      (updateAd now id owner p store).2 = storageInsert ad.id ad' store ∧
      storageGet ad.id (updateAd now id owner p store).2 = some ad' := by
  by_cases h1 : id = ""
  · simp [updateAd, h1] at h
  by_cases h2 : owner = ""
  · simp [updateAd, h1, h2] at h
  by_cases h3 : p.itemType = ""
  · simp [updateAd, h1, h2, h3] at h
  by_cases h4 : p.itemDescription = ""
  · simp [updateAd, h1, h2, h3, h4] at h
  by_cases h5 : (p.status != "" && !(inAdStatusObject p.status)) = true
  · simp [updateAd, h1, h2, h3, h4, h5] at h
  rcases hget : storageGet id store with _ | ad
  · simp [updateAd, h1, h2, h3, h4, h5, hget] at h
  by_cases h6 : ad.owner = owner
  · have hok : applyUpdate now p ad = ad' := by
      simpa [updateAd, h1, h2, h3, h4, h5, hget, h6] using h
    subst hok
    refine ⟨ad, rfl, ?_, ?_, ?_, rfl, rfl, rfl, rfl, rfl, ?_, ?_⟩
    · simp [applyUpdate, h3]
    · simp [applyUpdate, h4]
    · simp [applyUpdate]
    · simp [updateAd, h1, h2, h3, h4, h5, hget, h6, applyUpdate]
    · have hstore :
          (updateAd now id owner p store).2 =
            storageInsert ad.id (applyUpdate now p ad) store := by
        simp [updateAd, h1, h2, h3, h4, h5, hget, h6]
      rw [hstore, storageGet_insert_self]
  · simp [updateAd, h1, h2, h3, h4, h5, hget, h6] at h

/-- C3 witness: a concrete successful update. -/
theorem updateAd_success_frame_witness :
    (updateAd 9 "a" "o"
        { itemType := "nt", itemDescription := "nd", status := "CLOSED" }
        [("a", { id := "a", owner := "o", itemType := "x",
                 itemDescription := "y", bids := [], status := "OPEN",
                 createdAt := 3, updatedAt := none })]).1 =
      Except.ok { id := "a", owner := "o", itemType := "nt",
                  itemDescription := "nd", bids := [], status := "CLOSED",
                  createdAt := 3, updatedAt := some 9 } ∧
    (∃ ad : Ad,
      storageGet "a"
          [("a", { id := "a", owner := "o", itemType := "x",
                   itemDescription := "y", bids := [], status := "OPEN",
                   createdAt := 3, updatedAt := none })] = some ad ∧
      ({ id := "a", owner := "o", itemType := "nt", itemDescription := "nd",
         bids := [], status := "CLOSED", createdAt := 3,
         updatedAt := some 9 } : Ad).itemType = "nt" ∧
      ({ id := "a", owner := "o", itemType := "nt", itemDescription := "nd",
         bids := [], status := "CLOSED", createdAt := 3,
         updatedAt := some 9 } : Ad).itemDescription = "nd" ∧
      ({ id := "a", owner := "o", itemType := "nt", itemDescription := "nd",
         bids := [], status := "CLOSED", createdAt := 3,
         updatedAt := some 9 } : Ad).status =
        (if ("CLOSED" : String) = "" then ad.status else "CLOSED") ∧
      ({ id := "a", owner := "o", itemType := "nt", itemDescription := "nd",
         bids := [], status := "CLOSED", createdAt := 3,
         updatedAt := some 9 } : Ad).updatedAt = some 9 ∧
      ({ id := "a", owner := "o", itemType := "nt", itemDescription := "nd",
         bids := [], status := "CLOSED", createdAt := 3,
         updatedAt := some 9 } : Ad).id = ad.id ∧
      ({ id := "a", owner := "o", itemType := "nt", itemDescription := "nd",
         bids := [], status := "CLOSED", createdAt := 3,
         updatedAt := some 9 } : Ad).owner = ad.owner ∧
      ({ id := "a", owner := "o", itemType := "nt", itemDescription := "nd",
         bids := [], status := "CLOSED", createdAt := 3,
         updatedAt := some 9 } : Ad).createdAt = ad.createdAt ∧
      ({ id := "a", owner := "o", itemType := "nt", itemDescription := "nd",
         bids := [], status := "CLOSED", createdAt := 3,
         updatedAt := some 9 } : Ad).bids = ad.bids ∧
      (updateAd 9 "a" "o"
          { itemType := "nt", itemDescription := "nd", status := "CLOSED" }
          [("a", { id := "a", owner := "o", itemType := "x",
                   itemDescription := "y", bids := [], status := "OPEN",
                   createdAt := 3, updatedAt := none })]).2 =
        storageInsert ad.id
          { id := "a", owner := "o", itemType := "nt",
            itemDescription := "nd", bids := [], status := "CLOSED",
            createdAt := 3, updatedAt := some 9 }
          [("a", { id := "a", owner := "o", itemType := "x",
                   itemDescription := "y", bids := [], status := "OPEN",
                   createdAt := 3, updatedAt := none })] ∧
      storageGet ad.id
          (updateAd 9 "a" "o"
              { itemType := "nt", itemDescription := "nd",
                status := "CLOSED" }
              [("a", { id := "a", owner := "o", itemType := "x",
                       itemDescription := "y", bids := [], status := "OPEN",
                       createdAt := 3, updatedAt := none })]).2 =
        some { id := "a", owner := "o", itemType := "nt",
               itemDescription := "nd", bids := [], status := "CLOSED",
               createdAt := 3, updatedAt := some 9 }) :=
  ⟨rfl, updateAd_success_frame 9 "a" "o"
    { itemType := "nt", itemDescription := "nd", status := "CLOSED" }
    [("a", { id := "a", owner := "o", itemType := "x",
             itemDescription := "y", bids := [], status := "OPEN",
             createdAt := 3, updatedAt := none })]
    { id := "a", owner := "o", itemType := "nt", itemDescription := "nd",
      bids := [], status := "CLOSED", createdAt := 3, updatedAt := some 9 }
    rfl⟩

/-- C5: updateAd with non-empty id and owner, non-empty payload fields and a
status that passes the membership check fails with Unauthorized and returns
the store untouched whenever the supplied owner differs from the stored
ad's owner. -/
theorem updateAd_unauthorized (now : Nat) (id owner : String)
    (p : UpdateAdPayload) (store : AdStore) (ad : Ad)
    (hid : id ≠ "") (howner : owner ≠ "")
    (hit : p.itemType ≠ "") (hdesc : p.itemDescription ≠ "")
    (hstat : p.status = "" ∨ inAdStatusObject p.status = true)
    (hget : storageGet id store = some ad)
    (hne : ad.owner ≠ owner) :
    updateAd now id owner p store =
      (Except.error "Only the owner can edit the ad!", store) := by
  have h5 : (p.status != "" && !(inAdStatusObject p.status)) = false := by
    rcases hstat with h | h <;> simp [h]
  simp [updateAd, hid, howner, hit, hdesc, h5, hget, hne]

/-- C5 witness: a concrete unauthorized update attempt. -/
theorem updateAd_unauthorized_witness :
    ("a" : String) ≠ "" ∧ ("mallory" : String) ≠ "" ∧
    ("nt" : String) ≠ "" ∧ ("nd" : String) ≠ "" ∧
    (("OPEN" : String) = "" ∨ inAdStatusObject "OPEN" = true) ∧
    storageGet "a"
        [("a", { id := "a", owner := "o", itemType := "x",
                 itemDescription := "y", bids := [], status := "OPEN",
                 createdAt := 3, updatedAt := none })] =
      some { id := "a", owner := "o", itemType := "x",
             itemDescription := "y", bids := [], status := "OPEN",
             createdAt := 3, updatedAt := none } ∧
    ({ id := "a", owner := "o", itemType := "x", itemDescription := "y",
       bids := [], status := "OPEN", createdAt := 3,
       updatedAt := none } : Ad).owner ≠ "mallory" ∧
    updateAd 9 "a" "mallory"
        { itemType := "nt", itemDescription := "nd", status := "OPEN" }
        [("a", { id := "a", owner := "o", itemType := "x",
                 itemDescription := "y", bids := [], status := "OPEN",
                 createdAt := 3, updatedAt := none })] =
      (Except.error "Only the owner can edit the ad!",
       [("a", { id := "a", owner := "o", itemType := "x",
                itemDescription := "y", bids := [], status := "OPEN",
                createdAt := 3, updatedAt := none })]) :=
  ⟨by decide, by decide, by decide, by decide, Or.inr rfl, rfl, by decide,
   updateAd_unauthorized 9 "a" "mallory"
     { itemType := "nt", itemDescription := "nd", status := "OPEN" }
     [("a", { id := "a", owner := "o", itemType := "x",
              itemDescription := "y", bids := [], status := "OPEN",
              createdAt := 3, updatedAt := none })]
     { id := "a", owner := "o", itemType := "x", itemDescription := "y",
       bids := [], status := "OPEN", createdAt := 3, updatedAt := none }
     (by decide) (by decide) (by decide) (by decide) (Or.inr rfl) rfl
     (by decide)⟩

/-- C10 counterexample: the claim says an invalid non-empty status (one
outside OPEN, CLOSED, BOUGHT) yields the InvalidStatus failure even when no
ad exists for the id, but the status "toString" — non-empty and outside the
three — passes the code's `in`-operator check and the call reaches the
store lookup, returning NotFound instead. -/
theorem updateAd_validation_order_cex :
    ("toString" : String) ≠ "" ∧
    adStatusValues.contains "toString" = false ∧
    updateAd 0 "a" "b"
        { itemType := "t", itemDescription := "d", status := "toString" }
        [] =
      (Except.error "Ad with id of a has not been found", []) :=
  ⟨by decide, rfl, rfl⟩

/-- C10 (amended): updateAd validates its arguments before consulting the
store — empty id or owner gives InvalidParameters; otherwise an empty
payload itemType or itemDescription gives InvalidPayload; otherwise a
non-empty status failing the code's membership check (neither one of the
three statuses nor a property name inherited from Object.prototype) gives
InvalidStatus; all three regardless of the store contents and without
modifying the store; and when every validation passes, a missing ad gives
NotFound. -/
theorem updateAd_validates_before_lookup (now : Nat) (id owner : String)
    (p : UpdateAdPayload) (store : AdStore) :
    ((id = "" ∨ owner = "") →
      updateAd now id owner p store =
        (Except.error "Invalid parameters for updating ad", store)) ∧
    (id ≠ "" → owner ≠ "" →
      (p.itemType = "" ∨ p.itemDescription = "") →
      updateAd now id owner p store =
        (Except.error "Invalid payload for updating ad", store)) ∧
    (id ≠ "" → owner ≠ "" → p.itemType ≠ "" → p.itemDescription ≠ "" →
      p.status ≠ "" → inAdStatusObject p.status = false →
      updateAd now id owner p store =
        (Except.error
          "Invalid status! Allowed statuses are OPEN, CLOSED, BOUGHT",
         store)) ∧
    (id ≠ "" → owner ≠ "" → p.itemType ≠ "" → p.itemDescription ≠ "" →
      (p.status = "" ∨ inAdStatusObject p.status = true) →
      storageGet id store = none →
      updateAd now id owner p store =
        (Except.error ("Ad with id of " ++ id ++ " has not been found"),
         store)) := by
  refine ⟨?_, ?_, ?_, ?_⟩
  · rintro (h | h) <;> simp [updateAd, h]
  · rintro h1 h2 (h | h) <;> simp [updateAd, h1, h2, h]
  · intro h1 h2 h3 h4 h5 h6
    simp [updateAd, h1, h2, h3, h4, h5, h6]
  · intro h1 h2 h3 h4 h5 hget
    have h6 : (p.status != "" && !(inAdStatusObject p.status)) = false := by
      rcases h5 with h | h <;> simp [h]
    simp [updateAd, h1, h2, h3, h4, h6, hget]

/-- C10 witness: the four validation outcomes at concrete inputs, all on a
store that does not contain the id. -/
theorem updateAd_validates_before_lookup_witness :
    updateAd 0 "" "b" (UpdateAdPayload.mk "t" "d" "") [] =
      (Except.error "Invalid parameters for updating ad", []) ∧
    updateAd 0 "a" "b" (UpdateAdPayload.mk "" "d" "") [] =
      (Except.error "Invalid payload for updating ad", []) ∧
    updateAd 0 "a" "b" (UpdateAdPayload.mk "t" "d" "WEIRD") [] =
      (Except.error
        "Invalid status! Allowed statuses are OPEN, CLOSED, BOUGHT", []) ∧
    updateAd 0 "a" "b" (UpdateAdPayload.mk "t" "d" "CLOSED") [] =
      (Except.error "Ad with id of a has not been found", []) :=
  ⟨(updateAd_validates_before_lookup 0 "" "b"
      (UpdateAdPayload.mk "t" "d" "") []).1 (Or.inl rfl),
   (updateAd_validates_before_lookup 0 "a" "b"
      (UpdateAdPayload.mk "" "d" "") []).2.1
      (by decide) (by decide) (Or.inl rfl),
   (updateAd_validates_before_lookup 0 "a" "b"
      (UpdateAdPayload.mk "t" "d" "WEIRD") []).2.2.1
      (by decide) (by decide) (by decide) (by decide) (by decide) (by decide),
   (updateAd_validates_before_lookup 0 "a" "b"
      (UpdateAdPayload.mk "t" "d" "CLOSED") []).2.2.2
      (by decide) (by decide) (by decide) (by decide) (Or.inr (by decide))
      rfl⟩

/-- C7: getAllAds on the empty store succeeds with the empty sequence,
while getAdsByOwner with no matching ad fails with an error, not an empty
success. -/
theorem query_empty_asymmetry (owner : String) (store : AdStore)
    (hempty :
      (storageValues store).filter (fun ad => ad.owner == owner) = []) :
    getAllAds [] = Except.ok [] ∧
    getAdsByOwner owner store =
      Except.error ("No ads found for " ++ owner) := by
  refine ⟨rfl, ?_⟩
  simp [getAdsByOwner, hempty]

/-- C7 witness: a store holding one ad owned by someone else. -/
theorem query_empty_asymmetry_witness :
    (storageValues [("a", demoOpenAd)]).filter
        (fun ad => ad.owner == "nobody") = [] ∧
    (getAllAds [] = Except.ok [] ∧
      getAdsByOwner "nobody" [("a", demoOpenAd)] =
        Except.error ("No ads found for " ++ "nobody")) :=
  ⟨by decide, query_empty_asymmetry "nobody" [("a", demoOpenAd)] (by decide)⟩

/-- C8: deleteAd with the stored ad's id and its exact owner succeeds,
returns the pre-deletion ad, removes it from the store, and a subsequent
getAdByID on the same id fails with NotFound. -/
theorem deleteAd_removes (id : String) (store : AdStore) (ad : Ad)
    (hget : storageGet id store = some ad)
    (hid : id ≠ "") (howner : ad.owner ≠ "") :
    deleteAd id ad.owner store = (Except.ok ad, storageRemove id store) ∧
    getAdByID id (deleteAd id ad.owner store).2 =
      Except.error ("Ad with id of " ++ id ++ " has not been found!") := by
  have h1 : deleteAd id ad.owner store =
      (Except.ok ad, storageRemove id store) := by
    simp [deleteAd, hid, howner, hget]
  refine ⟨h1, ?_⟩
  rw [h1]
  simp [getAdByID, storageGet_remove_self]

/-- C8 witness: deleting the demo ad. -/
theorem deleteAd_removes_witness :
    storageGet "a" [("a", demoOpenAd)] = some demoOpenAd ∧
    ("a" : String) ≠ "" ∧ demoOpenAd.owner ≠ "" ∧
    (deleteAd "a" demoOpenAd.owner [("a", demoOpenAd)] =
        (Except.ok demoOpenAd, storageRemove "a" [("a", demoOpenAd)]) ∧
      getAdByID "a" (deleteAd "a" demoOpenAd.owner [("a", demoOpenAd)]).2 =
        Except.error ("Ad with id of " ++ "a" ++ " has not been found!")) :=
  ⟨rfl, by decide, by decide,
   deleteAd_removes "a" [("a", demoOpenAd)] demoOpenAd rfl (by decide)
     (by decide)⟩

/-- C6: every successful bidOnAd call appends exactly the bid
{bidder, amount} at the end of the stored ad's bids and changes no other
field — in particular status and updatedAt — in the returned and persisted
ad. -/
theorem bidOnAd_success_frame (id bidder : String) (amount : JSNum)
    (store : AdStore) (ad' : Ad)
    (h : (bidOnAd id bidder amount store).1 = Except.ok ad') :
    ∃ ad : Ad, storageGet id store = some ad ∧
      ad'.bids = ad.bids ++ [{ bidder := bidder, amount := amount }] ∧
      ad'.id = ad.id ∧ ad'.owner = ad.owner ∧
      ad'.itemType = ad.itemType ∧
      ad'.itemDescription = ad.itemDescription ∧
      ad'.status = ad.status ∧ ad'.createdAt = ad.createdAt ∧
      ad'.updatedAt = ad.updatedAt ∧
      (bidOnAd id bidder amount store).2 = storageInsert ad.id ad' store := by
  by_cases h1 : id = ""
  · simp [bidOnAd, h1] at h
  by_cases h2 : bidder = ""
  · simp [bidOnAd, h1, h2] at h
  by_cases h3 : amount.isNaN = true
  · simp [bidOnAd, h1, h2, h3] at h
  rcases hget : storageGet id store with _ | ad
  · simp [bidOnAd, h1, h2, h3, hget] at h
  by_cases h4 : ad.status = "OPEN"
  · by_cases h5 : ad.owner = bidder
    · simp [bidOnAd, h1, h2, h3, hget, h4, h5] at h
    · by_cases h6 :
          (ad.bids.find? (fun b => b.bidder == bidder)).isSome = true
      · simp [bidOnAd, h1, h2, h3, hget, h4, h5, h6] at h
      · have hok : applyBid bidder amount ad = ad' := by
          simpa [bidOnAd, h1, h2, h3, hget, h4, h5, h6] using h
        subst hok
        refine ⟨ad, rfl, rfl, rfl, rfl, rfl, rfl, rfl, rfl, rfl, ?_⟩
        simp [bidOnAd, h1, h2, h3, hget, h4, h5, h6, applyBid]
  · simp [bidOnAd, h1, h2, h3, hget, h4] at h

/-- C6 witness: a concrete successful bid on the demo ad. -/
theorem bidOnAd_success_frame_witness :
    (bidOnAd "a" "b" (JSNum.num 100) [("a", demoOpenAd)]).1 =
      Except.ok (applyBid "b" (JSNum.num 100) demoOpenAd) ∧
    (∃ ad : Ad, storageGet "a" [("a", demoOpenAd)] = some ad ∧
      (applyBid "b" (JSNum.num 100) demoOpenAd).bids =
        ad.bids ++ [{ bidder := "b", amount := JSNum.num 100 }] ∧
      (applyBid "b" (JSNum.num 100) demoOpenAd).id = ad.id ∧
      (applyBid "b" (JSNum.num 100) demoOpenAd).owner = ad.owner ∧
      (applyBid "b" (JSNum.num 100) demoOpenAd).itemType = ad.itemType ∧
      (applyBid "b" (JSNum.num 100) demoOpenAd).itemDescription =
        ad.itemDescription ∧
      (applyBid "b" (JSNum.num 100) demoOpenAd).status = ad.status ∧
      (applyBid "b" (JSNum.num 100) demoOpenAd).createdAt = ad.createdAt ∧
      (applyBid "b" (JSNum.num 100) demoOpenAd).updatedAt = ad.updatedAt ∧
      (bidOnAd "a" "b" (JSNum.num 100) [("a", demoOpenAd)]).2 =
        storageInsert ad.id (applyBid "b" (JSNum.num 100) demoOpenAd)
          [("a", demoOpenAd)]) :=
  ⟨rfl, bidOnAd_success_frame "a" "b" (JSNum.num 100) [("a", demoOpenAd)]
    (applyBid "b" (JSNum.num 100) demoOpenAd) rfl⟩

theorem find?_append_none {α : Type} (p : α → Bool) (l l' : List α)
    (h : l.find? p = none) : (l ++ l').find? p = l'.find? p := by
  induction l with
  | nil => rfl
  | cons x xs ih =>
      by_cases hx : p x = true
      · rw [List.find?_cons_of_pos _ hx] at h
        exact absurd h (by simp)
      · rw [List.find?_cons_of_neg _ hx] at h
        rw [List.cons_append, List.find?_cons_of_neg _ hx]
        exact ih h

/-- C4 counterexample: the claim quantifies over every open ad and every
bidder distinct from the owner, but when that bidder already appears in the
ad's bids the first of the two calls does not succeed — it already fails
with DuplicateBid. -/
theorem bidOnAd_twice_cex :
    ({ id := "a", owner := "o", itemType := "x", itemDescription := "y",
       bids := [{ bidder := "b", amount := JSNum.num 1 }], status := "OPEN",
       createdAt := 3, updatedAt := none } : Ad).status = "OPEN" ∧
    ("b" : String) ≠
      ({ id := "a", owner := "o", itemType := "x", itemDescription := "y",
         bids := [{ bidder := "b", amount := JSNum.num 1 }],
         status := "OPEN", createdAt := 3, updatedAt := none } : Ad).owner ∧
    (JSNum.num 5).isNaN = false ∧
    bidOnAd "a" "b" (JSNum.num 5)
        [("a", { id := "a", owner := "o", itemType := "x",
                 itemDescription := "y",
                 bids := [{ bidder := "b", amount := JSNum.num 1 }],
                 status := "OPEN", createdAt := 3, updatedAt := none })] =
      (Except.error "b has already bid on this ad!",
       [("a", { id := "a", owner := "o", itemType := "x",
                itemDescription := "y",
                bids := [{ bidder := "b", amount := JSNum.num 1 }],
                status := "OPEN", createdAt := 3, updatedAt := none })]) :=
  ⟨rfl, by decide, rfl, rfl⟩

/-- C4 (amended): for every open stored ad and every bidder distinct from
its owner who has not already bid on it, calling bidOnAd twice with that
bidder and valid amounts has the first call succeed and append exactly one
bid, and the second call fail with DuplicateBid while leaving the store —
hence the bids sequence and its length — unchanged. -/
theorem bidOnAd_twice_amended (id bidder : String) (a1 a2 : JSNum)
    (store : AdStore) (ad : Ad)
    (hget : storageGet id store = some ad) (hkey : ad.id = id)
    (hid : id ≠ "") (hbidder : bidder ≠ "")
    (hn1 : a1.isNaN = false) (hn2 : a2.isNaN = false)
    (hopen : ad.status = "OPEN") (hno : ad.owner ≠ bidder)
    (hnew : ad.bids.find? (fun b => b.bidder == bidder) = none) :
    ∃ ad1 : Ad,
      bidOnAd id bidder a1 store =
        (Except.ok ad1, storageInsert id ad1 store) ∧
      ad1.bids = ad.bids ++ [{ bidder := bidder, amount := a1 }] ∧
      bidOnAd id bidder a2 (bidOnAd id bidder a1 store).2 =
        (Except.error (bidder ++ " has already bid on this ad!"),
         (bidOnAd id bidder a1 store).2) ∧
      storageGet id
          (bidOnAd id bidder a2 (bidOnAd id bidder a1 store).2).2 =
        some ad1 := by
  have e1 : bidOnAd id bidder a1 store =
      (Except.ok (applyBid bidder a1 ad),
       storageInsert id (applyBid bidder a1 ad) store) := by
    simp [bidOnAd, hid, hbidder, hn1, hget, hopen, hno, hnew, hkey]
  have hget2 : storageGet id (bidOnAd id bidder a1 store).2 =
      some (applyBid bidder a1 ad) := by
    rw [e1]
    exact storageGet_insert_self id (applyBid bidder a1 ad) store
  have hbids : (applyBid bidder a1 ad).bids =
      ad.bids ++ [({ bidder := bidder, amount := a1 } : Bid)] := rfl
  have hfind2 : ((applyBid bidder a1 ad).bids.find?
      (fun b => b.bidder == bidder)) =
      some { bidder := bidder, amount := a1 } := by
    rw [hbids, find?_append_none _ _ _ hnew]
    simp [List.find?_cons]
  have hdup : ∃ x ∈ (applyBid bidder a1 ad).bids, x.bidder = bidder := by
    refine ⟨{ bidder := bidder, amount := a1 }, ?_, rfl⟩
    rw [hbids]
    simp
  have hst : (applyBid bidder a1 ad).status = "OPEN" := hopen
  have how : (applyBid bidder a1 ad).owner = ad.owner := rfl
  obtain ⟨s1, hs1⟩ : ∃ s1, (bidOnAd id bidder a1 store).2 = s1 := ⟨_, rfl⟩
  have hgs : storageGet id s1 = some (applyBid bidder a1 ad) := by
    rw [← hs1]
    exact hget2
  have e2 : bidOnAd id bidder a2 s1 =
      (Except.error (bidder ++ " has already bid on this ad!"), s1) := by
    simp [bidOnAd, hid, hbidder, hn2, hgs, hst, how, hno, hfind2, hdup]
  rw [hs1]
  refine ⟨applyBid bidder a1 ad, e1, rfl, e2, ?_⟩
  rw [e2]
  exact hgs

/-- C4 witness: bidding twice with the same fresh bidder on the demo ad. -/
theorem bidOnAd_twice_amended_witness :
    storageGet "a" [("a", demoOpenAd)] = some demoOpenAd ∧
    demoOpenAd.id = "a" ∧ ("a" : String) ≠ "" ∧ ("b" : String) ≠ "" ∧
    (JSNum.num 100).isNaN = false ∧ (JSNum.num 150).isNaN = false ∧
    demoOpenAd.status = "OPEN" ∧ demoOpenAd.owner ≠ "b" ∧
    demoOpenAd.bids.find? (fun b => b.bidder == "b") = none ∧
    (∃ ad1 : Ad,
      bidOnAd "a" "b" (JSNum.num 100) [("a", demoOpenAd)] =
        (Except.ok ad1, storageInsert "a" ad1 [("a", demoOpenAd)]) ∧
      ad1.bids =
        demoOpenAd.bids ++ [{ bidder := "b", amount := JSNum.num 100 }] ∧
      bidOnAd "a" "b" (JSNum.num 150)
          (bidOnAd "a" "b" (JSNum.num 100) [("a", demoOpenAd)]).2 =
        (Except.error ("b" ++ " has already bid on this ad!"),
         (bidOnAd "a" "b" (JSNum.num 100) [("a", demoOpenAd)]).2) ∧
      storageGet "a"
          (bidOnAd "a" "b" (JSNum.num 150)
              (bidOnAd "a" "b" (JSNum.num 100) [("a", demoOpenAd)]).2).2 =
        some ad1) :=
  ⟨rfl, rfl, by decide, by decide, rfl, rfl, rfl, by decide, rfl,
   bidOnAd_twice_amended "a" "b" (JSNum.num 100) (JSNum.num 150)
     [("a", demoOpenAd)] demoOpenAd rfl rfl (by decide) (by decide) rfl rfl
     rfl (by decide) rfl⟩

/-! ### Branch characterizations of the written stores, used for the
reachability invariant -/

theorem applyOp_create_cases (gI gO : String) (now : Nat) (it d : String)
    (s : AdStore) :
    applyOp (Op.create gI gO now it d) s = s ∨
    applyOp (Op.create gI gO now it d) s =
      storageInsert gI
        { id := gI, owner := gO, bids := [], status := "OPEN",
          createdAt := now, updatedAt := none, itemType := it,
          itemDescription := d } s := by
  by_cases h1 : it = ""
  · left
    simp [applyOp, createAd, h1]
  by_cases h2 : d = ""
  · left
    simp [applyOp, createAd, h1, h2]
  · right
    simp [applyOp, createAd, h1, h2]

theorem applyOp_update_cases (now : Nat) (id owner : String)
    (p : UpdateAdPayload) (s : AdStore) :
    applyOp (Op.update now id owner p) s = s ∨
    ∃ ad0, storageGet id s = some ad0 ∧
      applyOp (Op.update now id owner p) s =
        storageInsert ad0.id (applyUpdate now p ad0) s := by
  by_cases h1 : id = ""
  · left
    simp [applyOp, updateAd, h1]
  by_cases h2 : owner = ""
  · left
    simp [applyOp, updateAd, h1, h2]
  by_cases h3 : p.itemType = ""
  · left
    simp [applyOp, updateAd, h1, h2, h3]
  by_cases h4 : p.itemDescription = ""
  · left
    simp [applyOp, updateAd, h1, h2, h3, h4]
  by_cases h5 : (p.status != "" && !(inAdStatusObject p.status)) = true
  · left
    simp [applyOp, updateAd, h1, h2, h3, h4, h5]
  rcases hg : storageGet id s with _ | ad0
  · left
    simp [applyOp, updateAd, h1, h2, h3, h4, h5, hg]
  by_cases h6 : ad0.owner = owner
  · right
    refine ⟨ad0, rfl, ?_⟩
    simp [applyOp, updateAd, h1, h2, h3, h4, h5, hg, h6]
  · left
    simp [applyOp, updateAd, h1, h2, h3, h4, h5, hg, h6]

theorem applyOp_delete_cases (id owner : String) (s : AdStore) :
    applyOp (Op.delete id owner) s = s ∨
    applyOp (Op.delete id owner) s = storageRemove id s := by
  by_cases h1 : id = ""
  · left
    simp [applyOp, deleteAd, h1]
  by_cases h2 : owner = ""
  · left
    simp [applyOp, deleteAd, h1, h2]
  rcases hg : storageGet id s with _ | ad0
  · left
    simp [applyOp, deleteAd, h1, h2, hg]
  by_cases h3 : ad0.owner = owner
  · right
    simp [applyOp, deleteAd, h1, h2, hg, h3]
  · left
    simp [applyOp, deleteAd, h1, h2, hg, h3]

theorem applyOp_bid_cases (id bidder : String) (amount : JSNum)
    (s : AdStore) :
    applyOp (Op.bid id bidder amount) s = s ∨
    ∃ ad0, storageGet id s = some ad0 ∧ ad0.status = "OPEN" ∧
      ad0.owner ≠ bidder ∧
      ad0.bids.find? (fun b => b.bidder == bidder) = none ∧
      applyOp (Op.bid id bidder amount) s =
        storageInsert ad0.id (applyBid bidder amount ad0) s := by
  by_cases h1 : id = ""
  · left
    simp [applyOp, bidOnAd, h1]
  by_cases h2 : bidder = ""
  · left
    simp [applyOp, bidOnAd, h1, h2]
  by_cases h3 : amount.isNaN = true
  · left
    simp [applyOp, bidOnAd, h1, h2, h3]
  rcases hg : storageGet id s with _ | ad0
  · left
    simp [applyOp, bidOnAd, h1, h2, h3, hg]
  by_cases h4 : ad0.status = "OPEN"
  · by_cases h5 : ad0.owner = bidder
    · left
      simp [applyOp, bidOnAd, h1, h2, h3, hg, h4, h5]
    · by_cases h6 :
          (ad0.bids.find? (fun b => b.bidder == bidder)).isSome = true
      · left
        simp [applyOp, bidOnAd, h1, h2, h3, hg, h4, h5, h6]
      · right
        have h6' : ad0.bids.find? (fun b => b.bidder == bidder) = none :=
          Option.not_isSome_iff_eq_none.mp h6
        refine ⟨ad0, rfl, h4, h5, h6', ?_⟩
        simp [applyOp, bidOnAd, h1, h2, h3, hg, h4, h5, h6]
  · left
    simp [applyOp, bidOnAd, h1, h2, h3, hg, h4]

theorem adInv_applyBid {ad : Ad} (bidder : String) (amount : JSNum)
    (hinv : AdInv ad) (hno : ad.owner ≠ bidder)
    (hnew : ad.bids.find? (fun b => b.bidder == bidder) = none) :
    AdInv (applyBid bidder amount ad) := by
  obtain ⟨hnd, hown⟩ := hinv
  have hnotmem : bidder ∉ ad.bids.map Bid.bidder := by
    intro hmem
    rcases List.mem_map.mp hmem with ⟨b, hb, hbid⟩
    have hfb := List.find?_eq_none.mp hnew b hb
    simp [hbid] at hfb
  constructor
  · simp only [applyBid, List.map_append, List.map_cons, List.map_nil]
    rw [List.nodup_append]
    refine ⟨hnd, List.nodup_singleton _, ?_⟩
    intro x hx hx'
    simp at hx'
    subst hx'
    exact hnotmem hx
  · simp only [applyBid, List.map_append, List.map_cons, List.map_nil]
    rw [List.mem_append]
    rintro (hmem | hmem)
    · exact hown hmem
    · simp at hmem
      exact hno hmem

theorem bids_step_trivial {s s2 : AdStore} {k : String} {ad ad' : Ad}
    (e : storageGet k s2 = storageGet k s)
    (h1 : storageGet k s = some ad) (h2 : storageGet k s2 = some ad') :
    ad.bids <+: ad'.bids ∧ (ad'.bids ≠ ad.bids → ad.status = "OPEN") := by
  rw [e, h1] at h2
  injection h2 with h2
  subst h2
  exact ⟨List.prefix_refl _, fun hne => absurd rfl hne⟩

theorem storeInv_applyOp (op : Op) (s : AdStore) (hs : StoreInv s)
    (hf : FreshOk op s) : StoreInv (applyOp op s) := by
  cases op with
  | create gI gO now it d =>
      rcases applyOp_create_cases gI gO now it d s with e | e
      · rw [e]
        exact hs
      · rw [e]
        intro p hp
        rcases mem_storageInsert _ _ _ hp with hpe | hpm
        · subst hpe
          exact ⟨rfl, by simp [AdInv], by simp [AdInv]⟩
        · exact hs p hpm
  | update now id owner p0 =>
      rcases applyOp_update_cases now id owner p0 s with e | ⟨ad0, hg, e⟩
      · rw [e]
        exact hs
      · rw [e]
        intro q hq
        rcases mem_storageInsert _ _ _ hq with hqe | hqm
        · subst hqe
          refine ⟨rfl, ?_⟩
          have hinv := (hs (id, ad0) (storageGet_mem hg)).2
          exact hinv
        · exact hs q hqm
  | delete id owner =>
      rcases applyOp_delete_cases id owner s with e | e
      · rw [e]
        exact hs
      · rw [e]
        intro q hq
        exact hs q (List.mem_of_mem_filter hq)
  | bid id bidder amount =>
      rcases applyOp_bid_cases id bidder amount s with
        e | ⟨ad0, hg, hopen, hno, hnew, e⟩
      · rw [e]
        exact hs
      · rw [e]
        intro q hq
        rcases mem_storageInsert _ _ _ hq with hqe | hqm
        · subst hqe
          refine ⟨rfl, ?_⟩
          exact adInv_applyBid bidder amount
            (hs (id, ad0) (storageGet_mem hg)).2 hno hnew
        · exact hs q hqm
  | qAll => exact hs
  | qById i => exact hs
  | qByOwner o => exact hs

theorem reachable_storeInv (s : AdStore) (h : Reachable s) : StoreInv s := by
  induction h with
  | init =>
      intro p hp
      simp at hp
  | step op s hr hf ih => exact storeInv_applyOp op s ih hf

theorem applyOp_bids_prefix (op : Op) (s : AdStore) (hs : StoreInv s)
    (hf : FreshOk op s) (k : String) (ad ad' : Ad)
    (h1 : storageGet k s = some ad)
    (h2 : storageGet k (applyOp op s) = some ad') :
    ad.bids <+: ad'.bids ∧ (ad'.bids ≠ ad.bids → ad.status = "OPEN") := by
  cases op with
  | create gI gO now it d =>
      rcases applyOp_create_cases gI gO now it d s with e | e
      · exact bids_step_trivial (by rw [e]) h1 h2
      · by_cases hk : k = gI
        · subst hk
          have hf' : storageGet k s = none := hf
          rw [hf'] at h1
          exact Option.noConfusion h1
        · refine bids_step_trivial ?_ h1 h2
          rw [e]
          exact storageGet_insert_ne k gI _ s hk
  | update now id owner p0 =>
      rcases applyOp_update_cases now id owner p0 s with e | ⟨ad0, hg, e⟩
      · exact bids_step_trivial (by rw [e]) h1 h2
      · have hkey : ad0.id = id := (hs (id, ad0) (storageGet_mem hg)).1
        by_cases hk : k = id
        · subst hk
          rw [h1] at hg
          injection hg with had
          have had' : ad' = applyUpdate now p0 ad0 := by
            rw [e, hkey, storageGet_insert_self] at h2
            injection h2 with h2
            exact h2.symm
          have hb : ad'.bids = ad.bids := by
            rw [had', had]
            rfl
          exact ⟨by rw [hb], fun hne => absurd hb hne⟩
        · refine bids_step_trivial ?_ h1 h2
          rw [e, hkey]
          exact storageGet_insert_ne k id _ s hk
  | delete id owner =>
      rcases applyOp_delete_cases id owner s with e | e
      · exact bids_step_trivial (by rw [e]) h1 h2
      · by_cases hk : k = id
        · subst hk
          rw [e, storageGet_remove_self] at h2
          exact Option.noConfusion h2
        · refine bids_step_trivial ?_ h1 h2
          rw [e]
          exact storageGet_remove_ne k id s hk
  | bid id bidder amount =>
      rcases applyOp_bid_cases id bidder amount s with
        e | ⟨ad0, hg, hopen, hno, hnew, e⟩
      · exact bids_step_trivial (by rw [e]) h1 h2
      · have hkey : ad0.id = id := (hs (id, ad0) (storageGet_mem hg)).1
        by_cases hk : k = id
        · subst hk
          rw [h1] at hg
          injection hg with had
          have had' : ad' = applyBid bidder amount ad0 := by
            rw [e, hkey, storageGet_insert_self] at h2
            injection h2 with h2
            exact h2.symm
          constructor
          · rw [had', had]
            exact ⟨[{ bidder := bidder, amount := amount }], rfl⟩
          · intro _
            rw [had]
            exact hopen
        · refine bids_step_trivial ?_ h1 h2
          rw [e, hkey]
          exact storageGet_insert_ne k id _ s hk
  | qAll => exact bids_step_trivial rfl h1 h2
  | qById i => exact bids_step_trivial rfl h1 h2
  | qByOwner o => exact bids_step_trivial rfl h1 h2

/-- C9: in every store reachable from the empty store through the seven
operations (createAd always receiving a fresh id from the generator),
every stored ad has pairwise-distinct bidders with its owner never among
them, and over any further operation the bids of an ad present before and
after are preserved as a prefix — never removed or reordered — and grow
only when the ad's status was OPEN before the step. -/
theorem reachable_bid_invariants (s : AdStore) (h : Reachable s) :
    (∀ p ∈ s, (p.2.bids.map Bid.bidder).Nodup ∧
      p.2.owner ∉ p.2.bids.map Bid.bidder) ∧
    (∀ op : Op, FreshOk op s → ∀ (k : String) (ad ad' : Ad),
      storageGet k s = some ad →
      storageGet k (applyOp op s) = some ad' →
      ad.bids <+: ad'.bids ∧ (ad'.bids ≠ ad.bids → ad.status = "OPEN")) := by
  have hs := reachable_storeInv s h
  refine ⟨fun p hp => (hs p hp).2, ?_⟩
  intro op hf k ad ad' h1 h2
  exact applyOp_bids_prefix op s hs hf k ad ad' h1 h2

/-- C9 witness: the store holding the demo ad is reachable (one create from
the empty store), and the invariants hold there. -/
theorem reachable_bid_invariants_witness :
    Reachable [("a", demoOpenAd)] ∧
    ((∀ p ∈ [("a", demoOpenAd)], (p.2.bids.map Bid.bidder).Nodup ∧
      p.2.owner ∉ p.2.bids.map Bid.bidder) ∧
    (∀ op : Op, FreshOk op [("a", demoOpenAd)] →
      ∀ (k : String) (ad ad' : Ad),
      storageGet k [("a", demoOpenAd)] = some ad →
      storageGet k (applyOp op [("a", demoOpenAd)]) = some ad' →
      ad.bids <+: ad'.bids ∧ (ad'.bids ≠ ad.bids → ad.status = "OPEN"))) :=
  have hreach : Reachable [("a", demoOpenAd)] :=
    Reachable.step (Op.create "a" "o" 3 "x" "y") [] Reachable.init rfl
  ⟨hreach, reachable_bid_invariants [("a", demoOpenAd)] hreach⟩

end ICAds
